import Mathlib

/-!
# webrtcDemo: signalling, track routing and teardown of `main.go`

A shallow embedding of `src/main.go`.  Every call the program makes on the
outside world (the WebRTC engine, the websocket, the two media writers, the
process) is recorded as an `Effect`; the answers of the outside world are
inputs of the embedded functions.  A run is the list of effects it performed
together with the way it ended.
-/

namespace WebrtcDemo

/-! ## Data model -/

/-- Go `error` values, identified with their message. -/
abbrev Err := String

/-- The two media writers opened by `handleOffer`: `oggFile` and `ivfFile`. -/
inductive Sink where
  | ogg
  | ivf
  deriving DecidableEq, Repr

/-- An RTP packet as handed from `ReadRTP` to `WriteRTP`. -/
structure Packet where
  sequenceNumber : Nat
  payload : List Nat
  deriving DecidableEq, Repr

/-- Values of `webrtc.SDPType`; `unknown` is the zero value. -/
inductive SDPType where
  | unknown
  | offer
  | pranswer
  | answer
  | rollback
  deriving DecidableEq, Repr

/-- The exported fields of `webrtc.SessionDescription`. -/
structure SessionDescription where
  type : SDPType
  sdp : String
  deriving DecidableEq, Repr

/-- A JSON value as far as decoding into a string field can tell values apart. -/
inductive JSONValue where
  | null
  | string (s : String)
  | other
  deriving DecidableEq, Repr

/-- A websocket text payload as `encoding/json` sees it when the target is a
`SessionDescription`: bytes that are no JSON text, the text `null`, a JSON
text that is no object, or an object, given by the members that are bound to
the fields `type` and `sdp` (absent when the object has no such member). -/
inductive Payload where
  | invalid (raw : String)
  | null
  | nonObject
  | object (type : Option JSONValue) (sdp : Option JSONValue)
  deriving DecidableEq, Repr

/-- Values of `webrtc.ICEConnectionState`; `unknown` is the zero value. -/
inductive ICEConnectionState where
  | unknown
  | new
  | checking
  | connected
  | completed
  | disconnected
  | failed
  | closed
  deriving DecidableEq, Repr

/-- Values of `webrtc.PeerConnectionState`; `unknown` is the zero value. -/
inductive PeerConnectionState where
  | unknown
  | new
  | connecting
  | connected
  | disconnected
  | failed
  | closed
  deriving DecidableEq, Repr

/-- Media kinds of `webrtc.RTPCodecType` used by the program. -/
inductive RTPCodecType where
  | audio
  | video
  deriving DecidableEq, Repr

/-- One call of the program on the outside world. -/
inductive Effect where
  | print (line : String)
  | log (line : String)
  | upgrade
  | registerCodec (mime : String) (clockRate : Nat) (payloadType : Nat) (kind : RTPCodecType)
  | newReceiverInterceptor
  | registerDefaultInterceptors
  | newPeerConnection (stun : String)
  | addTransceiverFromKind (kind : RTPCodecType)
  | newWriter (s : Sink) (fileName : String)
  | onTrack
  | onICEConnectionStateChange
  | onConnectionStateChange
  | readMessage
  | setRemoteDescription (d : SessionDescription)
  | createAnswer
  | gatheringCompletePromise
  | setLocalDescription (d : SessionDescription)
  | gatherComplete
  | writeMessage (msg : Payload)
  | readRTP (p : Option Packet)
  | writeRTP (s : Sink) (p : Packet)
  | closeSink (s : Sink)
  | closePeerConnection
  | exit (code : Nat)
  deriving DecidableEq, Repr

/-- The ways a run ends other than by returning: a Go panic, `os.Exit`, a wait
that is never answered, or a loop that is still running when the step budget
of the model is used up. -/
inductive Stop where
  | panicked (e : Err)
  | exited (code : Nat)
  | blocked
  | running
  deriving DecidableEq, Repr

deriving instance DecidableEq for Except

/-- A run: the effects performed, in order, and how it ended (`Except.ok` is a
normal return). -/
structure Proc (α : Type) where
  trace : List Effect
  result : Except Stop α
  deriving DecidableEq

namespace Proc

/-- Sequencing: the second part runs only when the first returned. -/
def bind {α β : Type} (m : Proc α) (f : α → Proc β) : Proc β :=
  match m.result with
  | .error s => ⟨m.trace, .error s⟩
  | .ok a => ⟨m.trace ++ (f a).trace, (f a).result⟩

instance : Monad Proc where
  pure a := ⟨[], .ok a⟩
  bind := bind

end Proc

/-- Perform one effect and go on. -/
def emit (e : Effect) : Proc Unit := ⟨[e], .ok ()⟩

/-- End the run. -/
def halt {α : Type} (s : Stop) : Proc α := ⟨[], .error s⟩

/-- Go `if err != nil { panic(err) }`. -/
def panicOn (err : Option Err) : Proc Unit :=
  match err with
  | some e => halt (.panicked e)
  | none => pure ()

/-- The function `checkError`: `log.Panic(err)` when `err` is not nil. -/
def checkError (err : Option Err) : Proc Unit :=
  match err with
  | some e => do emit (.log e); halt (.panicked e)
  | none => pure ()

/-- Go `os.Exit(code)`. -/
def osExit {α : Type} (code : Nat) : Proc α := ⟨[.exit code], .error (.exited code)⟩

/-- Go `defer`: the deferred call runs when the body returns or panics. -/
def withDefer (body : Proc Unit) (deferred : Proc Unit) : Proc Unit :=
  match body.result with
  | .ok () => ⟨body.trace ++ deferred.trace, deferred.result⟩
  | .error (.panicked e) =>
      ⟨body.trace ++ deferred.trace,
        match deferred.result with
        | .ok () => .error (.panicked e)
        | .error s => .error s⟩
  | .error s => ⟨body.trace, .error s⟩

/-! ## Track draining: `saveToDisk` -/

/-- Behaviour of a remote track: the result of the `n`-th call of `ReadRTP`. -/
structure Track where
  readRTP : Nat → Except Err Packet

/-- Behaviour of a `media.Writer` during one drain: the result of the `n`-th
call of `WriteRTP` and the result of `Close`. -/
structure Writer where
  writeRTP : Nat → Packet → Option Err
  close : Option Err

/-- The `for` loop of `saveToDisk`; `n` counts the completed iterations. -/
def saveToDiskLoop (i : Sink) (w : Writer) (track : Track) : Nat → Nat → Proc Unit
  | 0, _ => halt .running
  | fuel + 1, n =>
    match track.readRTP n with
    | .error e => do
        emit (.readRTP none)
        emit (.print e)
    | .ok rtpPacket => do
        emit (.readRTP (some rtpPacket))
        emit (.writeRTP i rtpPacket)
        match w.writeRTP n rtpPacket with
        | some e => emit (.print e)
        | none => saveToDiskLoop i w track fuel (n + 1)

/-- The function `saveToDisk`: the loop, and the deferred `Close` of the writer,
which panics when `Close` fails. -/
def saveToDisk (i : Sink) (w : Writer) (track : Track) (fuel : Nat) : Proc Unit :=
  withDefer (saveToDiskLoop i w track fuel 0)
    (do emit (.closeSink i); panicOn w.close)

/-! ## Track routing: the `OnTrack` handler -/

/-- The constant `webrtc.MimeTypeOpus`. -/
def MimeTypeOpus : String := "audio/opus"

/-- The constant `webrtc.MimeTypeVP8`. -/
def MimeTypeVP8 : String := "video/VP8"

/-- One step of `strings.EqualFold` on a pair of runes.  Equal runes match;
two ASCII runes match when they are the upper and the lower case of one
letter; a pair with a rune outside ASCII is decided by the case-folding orbits
of the Unicode tables (`unicode.SimpleFold`), which are the parameter
`unicodeFold`, applied to the smaller and the larger rune. -/
def equalFoldRune (unicodeFold : Nat → Nat → Bool) (sr tr : Nat) : Bool :=
  if tr = sr then true
  else
    let lo := min sr tr
    let hi := max sr tr
    if hi < 128 then decide (65 ≤ lo ∧ lo ≤ 90 ∧ hi = lo + 32)
    else unicodeFold lo hi

/-- The loop of `strings.EqualFold` over the runes of both strings. -/
def equalFoldRunes (unicodeFold : Nat → Nat → Bool) : List Nat → List Nat → Bool
  | [], [] => true
  | [], _ :: _ => false
  | _ :: _, [] => false
  | sr :: s, tr :: t => equalFoldRune unicodeFold sr tr && equalFoldRunes unicodeFold s t

/-- Go `strings.EqualFold`. -/
def EqualFold (unicodeFold : Nat → Nat → Bool) (s t : String) : Bool :=
  equalFoldRunes unicodeFold (s.data.map Char.toNat) (t.data.map Char.toNat)

/-- The handler given to `peerConnection.OnTrack`, for a track whose codec has
the MIME type `mimeType`. -/
def onTrackHandler (unicodeFold : Nat → Nat → Bool) (mimeType : String)
    (oggFile ivfFile : Writer) (track : Track) (fuel : Nat) : Proc Unit :=
  if EqualFold unicodeFold mimeType MimeTypeOpus then do
    emit (.print "Got Opus track, saving to disk as output.opus (48 kHz, 2 channels)")
    saveToDisk .ogg oggFile track fuel
  else if EqualFold unicodeFold mimeType MimeTypeVP8 then do
    emit (.print "Got VP8 track, saving to disk as output.ivf")
    saveToDisk .ivf ivfFile track fuel
  else pure ()

/-! ## Lifecycle observers -/

/-- The text `ICEConnectionState.String()` gives. -/
def ICEConnectionState.name : ICEConnectionState → String
  | .unknown => "unknown"
  | .new => "new"
  | .checking => "checking"
  | .connected => "connected"
  | .completed => "completed"
  | .disconnected => "disconnected"
  | .failed => "failed"
  | .closed => "closed"

/-- The text `PeerConnectionState.String()` gives. -/
def PeerConnectionState.name : PeerConnectionState → String
  | .unknown => "unknown"
  | .new => "new"
  | .connecting => "connecting"
  | .connected => "connected"
  | .disconnected => "disconnected"
  | .failed => "failed"
  | .closed => "closed"

/-- The handler given to `peerConnection.OnICEConnectionStateChange`.  The
three `Option Err` are the results of `oggFile.Close()`, `ivfFile.Close()` and
`peerConnection.Close()` should the handler call them. -/
def onICEConnectionStateChangeHandler (connectionState : ICEConnectionState)
    (oggClose ivfClose pcClose : Option Err) : Proc Unit := do
  emit (.print ("Connection State has changed " ++ connectionState.name ++ " "))
  if connectionState = .connected then
    emit (.print "Ctrl+C the remote client to stop the demo")
  else if connectionState = .failed ∨ connectionState = .closed then do
    emit (.closeSink .ogg)
    panicOn oggClose
    emit (.closeSink .ivf)
    panicOn ivfClose
    emit (.print "Done writing media files")
    emit .closePeerConnection
    panicOn pcClose
    osExit 0
  else pure ()

/-- The handler given to `peerConnection.OnConnectionStateChange`. -/
def onConnectionStateChangeHandler (s : PeerConnectionState) : Proc Unit := do
  emit (.print ("Peer Connection State has changed: " ++ s.name))
  if s = .failed then do
    emit (.print "Peer Connection has gone to failed exiting")
    osExit 0
  else pure ()
  if s = .closed then do
    emit (.print "Peer Connection has gone to closed exiting")
    osExit 0
  else pure ()

/-! ## Signalling: `handleOffer` -/

/-- The method `SDPType.String()`. -/
def SDPType.name : SDPType → String
  | .unknown => "unknown"
  | .offer => "offer"
  | .pranswer => "pranswer"
  | .answer => "answer"
  | .rollback => "rollback"

/-- Go `unicode.ToLower` on the runes whose lower case is an ASCII letter: the
ASCII capitals, the Kelvin sign (to `k`) and the dotted capital I (to `i`).
Every other rune stays outside the ASCII letters and is left as it is. -/
def toLowerRune (c : Char) : Char :=
  if c.toNat = 0x212A then 'k'
  else if c.toNat = 0x130 then 'i'
  else c.toLower

/-- The method `SDPType.UnmarshalJSON` on the JSON value of the member `type`:
the value is decoded into a Go string (`null` leaves it empty), which is
lower-cased and looked up. -/
def SDPType.UnmarshalJSON (v : JSONValue) : Except Err SDPType :=
  match v with
  | .other => .error "json: cannot unmarshal into Go value of type string"
  | .null => .error "unknown"
  | .string s =>
    let l := String.mk (s.data.map toLowerRune)
    if l = "offer" then .ok .offer
    else if l = "pranswer" then .ok .pranswer
    else if l = "answer" then .ok .answer
    else if l = "rollback" then .ok .rollback
    else .error "unknown"

/-- Go `json.Unmarshal(msg, &offer)` for an `offer` that starts as the zero
`SessionDescription`.  A member that is absent leaves its field at the zero
value; so does `null` for the string field `sdp`. -/
def Unmarshal (msg : Payload) : Except Err SessionDescription :=
  match msg with
  | .invalid _ => .error "invalid character looking for beginning of value"
  | .nonObject => .error "json: cannot unmarshal into Go value of type webrtc.SessionDescription"
  | .null => .ok ⟨.unknown, ""⟩
  | .object ty sdp =>
    match (match ty with
           | none => Except.ok SDPType.unknown
           | some v => SDPType.UnmarshalJSON v) with
    | .error e => .error e
    | .ok t =>
      match sdp with
      | none => .ok ⟨t, ""⟩
      | some .null => .ok ⟨t, ""⟩
      | some (.string s) => .ok ⟨t, s⟩
      | some .other => .error "json: cannot unmarshal into Go struct field SessionDescription.sdp of type string"

/-- Go `json.Marshal` of a `SessionDescription`: an object with the members
`type` (the text of the type) and `sdp`. -/
def Marshal (d : SessionDescription) : Payload :=
  .object (some (.string d.type.name)) (some (.string d.sdp))

/-- The answers of the outside world to the calls of `main` and `handleOffer`:
for a call that can fail, `none` or `Except.ok` is success.
`localDescription` is what `peerConnection.LocalDescription()` holds once ICE
gathering is complete. -/
structure Env where
  upgrade : Option Err
  registerVP8 : Option Err
  registerOpus : Option Err
  newReceiverInterceptor : Option Err
  registerDefaultInterceptors : Option Err
  newPeerConnection : Option Err
  addTransceiverAudio : Option Err
  addTransceiverVideo : Option Err
  oggNew : Option Err
  ivfNew : Option Err
  readMessage : Except Err Payload
  setRemoteDescription : SessionDescription → Option Err
  createAnswer : Except Err SessionDescription
  setLocalDescription : SessionDescription → Option Err
  gatheringCompletes : Bool
  localDescription : SessionDescription
  writeMessage : Payload → Option Err

/-- The part of `handleOffer` that follows the registration of the handlers:
read the offer, negotiate, send the answer. -/
def exchange (env : Env) : Proc Unit := do
  emit .readMessage
  match env.readMessage with
  | .error e => checkError (some e)
  | .ok msg =>
    match Unmarshal msg with
    | .error e => checkError (some e)
    | .ok offer => do
      emit (.print "success offer")
      emit (.setRemoteDescription offer)
      match env.setRemoteDescription offer with
      | some e => emit (.print e)
      | none => do
        emit .createAnswer
        match env.createAnswer with
        | .error e => emit (.print e)
        | .ok answer => do
          emit .gatheringCompletePromise
          emit (.setLocalDescription answer)
          match env.setLocalDescription answer with
          | some e => emit (.print e)
          | none =>
            if env.gatheringCompletes then do
              emit .gatherComplete
              emit (.writeMessage (Marshal answer))
              checkError (env.writeMessage (Marshal answer))
            else halt .blocked

/-- The function `handleOffer`. -/
def handleOffer (env : Env) : Proc Unit := do
  emit (.registerCodec MimeTypeVP8 90000 96 .video)
  panicOn env.registerVP8
  emit (.registerCodec MimeTypeOpus 48000 111 .audio)
  panicOn env.registerOpus
  emit .newReceiverInterceptor
  panicOn env.newReceiverInterceptor
  emit .registerDefaultInterceptors
  panicOn env.registerDefaultInterceptors
  emit (.newPeerConnection "stun:stun.l.google.com:19302")
  panicOn env.newPeerConnection
  emit (.addTransceiverFromKind .audio)
  panicOn env.addTransceiverAudio
  emit (.addTransceiverFromKind .video)
  panicOn env.addTransceiverVideo
  emit (.newWriter .ogg "output.ogg")
  panicOn env.oggNew
  emit (.newWriter .ivf "output.ivf")
  panicOn env.ivfNew
  emit .onTrack
  emit .onICEConnectionStateChange
  emit .onConnectionStateChange
  exchange env

/-- The handler of the route `/ws` in `main`. -/
def wsHandler (env : Env) : Proc Unit := do
  emit .upgrade
  checkError env.upgrade
  handleOffer env

/-! ## The Session after the handlers are registered -/

/-- One call of a registered handler by the engine, with the answers of the
outside world during that call: a remote track is announced and drained, the
ICE connection state changes, or the peer connection state changes. -/
inductive SessionEvent where
  | track (mimeType : String) (oggFile ivfFile : Writer) (remote : Track) (fuel : Nat)
  | iceState (s : ICEConnectionState) (oggClose ivfClose pcClose : Option Err)
  | connectionState (s : PeerConnectionState)

/-- The handler call an event stands for. -/
def SessionEvent.run (unicodeFold : Nat → Nat → Bool) : SessionEvent → Proc Unit
  | .track mimeType oggFile ivfFile remote fuel =>
      onTrackHandler unicodeFold mimeType oggFile ivfFile remote fuel
  | .iceState s oggClose ivfClose pcClose =>
      onICEConnectionStateChangeHandler s oggClose ivfClose pcClose
  | .connectionState s => onConnectionStateChangeHandler s

/-- Handler calls running concurrently.  Each thread is one handler call, given
by the effects it has still to perform and the way it ends; `schedule` names,
step by step, the thread that performs its next effect.  `os.Exit` ends the
process, and so does the panic of a thread that has performed all its
effects; a thread that returned, or that is named when it does not exist, lets
the schedule go on.  A schedule that ends leaves the rest of every thread
unperformed, so the result is a trace of the process up to some moment. -/
def interleave (threads : List (Proc Unit)) : List Nat → List Effect
  | [] => []
  | i :: schedule =>
    match threads[i]? with
    | none => interleave threads schedule
    | some t =>
      match t.trace with
      | .exit code :: _ => [.exit code]
      | e :: rest => e :: interleave (threads.set i ⟨rest, t.result⟩) schedule
      | [] =>
        match t.result with
        | .error (.panicked _) => []
        | _ => interleave threads schedule

/-- A Session: the engine calls the registered handlers, every call on a
goroutine of its own, and the calls run concurrently in the order the
schedule gives.  Every finite trace of the program after the registration is
of this form, for the events that occurred, with the step budget of every
drain at least the number of packets it read, and the schedule that was
followed. -/
def runSession (unicodeFold : Nat → Nat → Bool) (events : List SessionEvent)
    (schedule : List Nat) : List Effect :=
  interleave (events.map (SessionEvent.run unicodeFold)) schedule

/-- The number of calls of the ICE observer with the state `failed` or
`closed`. -/
def iceTeardowns : List SessionEvent → Nat
  | [] => 0
  | .iceState s _ _ _ :: evs =>
      (if s = .failed ∨ s = .closed then 1 else 0) + iceTeardowns evs
  | _ :: evs => iceTeardowns evs

/-- The number of announced tracks that the `OnTrack` handler drains into the
sink `s`. -/
def drainsInto (unicodeFold : Nat → Nat → Bool) (s : Sink) : List SessionEvent → Nat
  | [] => 0
  | .track mimeType _ _ _ _ :: evs =>
      (if (match s with
            | .ogg => EqualFold unicodeFold mimeType MimeTypeOpus
            | .ivf => EqualFold unicodeFold mimeType MimeTypeVP8) = true then 1 else 0)
        + drainsInto unicodeFold s evs
  | _ :: evs => drainsInto unicodeFold s evs

/-- The effects of `handleOffer` up to the registration of the three handlers,
when every step succeeds. -/
def setupTrace : List Effect :=
  [.registerCodec MimeTypeVP8 90000 96 .video,
   .registerCodec MimeTypeOpus 48000 111 .audio,
   .newReceiverInterceptor,
   .registerDefaultInterceptors,
   .newPeerConnection "stun:stun.l.google.com:19302",
   .addTransceiverFromKind .audio,
   .addTransceiverFromKind .video,
   .newWriter .ogg "output.ogg",
   .newWriter .ivf "output.ivf",
   .onTrack,
   .onICEConnectionStateChange,
   .onConnectionStateChange]

/-- Every step of `handleOffer` before the offer is read succeeds. -/
def Env.setupOk (env : Env) : Prop :=
  env.registerVP8 = none ∧ env.registerOpus = none ∧ env.newReceiverInterceptor = none
    ∧ env.registerDefaultInterceptors = none ∧ env.newPeerConnection = none
    ∧ env.addTransceiverAudio = none ∧ env.addTransceiverVideo = none
    ∧ env.oggNew = none ∧ env.ivfNew = none

/-- The success path of `handleOffer` up to the wait for ICE gathering: the
setup succeeds, the offer is read and decoded, the engine accepts it, creates
the answer `answer` and applies it, and gathering completes. -/
def Env.negotiates (env : Env) (answer : SessionDescription) : Prop :=
  env.setupOk ∧ ∃ msg offer, env.readMessage = .ok msg ∧ Unmarshal msg = .ok offer
    ∧ env.setRemoteDescription offer = none ∧ env.createAnswer = .ok answer
    ∧ env.setLocalDescription answer = none ∧ env.gatheringCompletes = true

/-! ## Observations on runs -/

/-- The packets passed to `WriteRTP`, in call order. -/
def writtenPackets : List Effect → List Packet
  | [] => []
  | .writeRTP _ p :: es => p :: writtenPackets es
  | _ :: es => writtenPackets es

/-- The packets returned by `ReadRTP`, in call order. -/
def readPackets : List Effect → List Packet
  | [] => []
  | .readRTP (some p) :: es => p :: readPackets es
  | _ :: es => readPackets es

/-- The packets returned by the `len` calls of `ReadRTP` that start with the
`n`-th call. -/
def Track.packetsFrom (t : Track) : Nat → Nat → List Packet
  | _, 0 => []
  | n, len + 1 =>
    match t.readRTP n with
    | .ok p => p :: t.packetsFrom (n + 1) len
    | .error _ => t.packetsFrom (n + 1) len

/-- The packets returned by the first `k` calls of `ReadRTP`. -/
def Track.packets (t : Track) (k : Nat) : List Packet := t.packetsFrom 0 k

/-- An effect that is output only (`fmt.Print*`, `log`). -/
def Effect.isOutput : Effect → Bool
  | .print _ => true
  | .log _ => true
  | _ => false

/-- An effect of a drain on the sink `i`: a read of its track, a write to `i`,
output, or the close of `i`. -/
def Effect.ofDrain (i : Sink) : Effect → Bool
  | .readRTP _ => true
  | .writeRTP s _ => decide (s = i)
  | .closeSink s => decide (s = i)
  | .print _ => true
  | _ => false

/-- The number of `Close` calls on the sink `s`. -/
def closeCount (s : Sink) : List Effect → Nat
  | [] => 0
  | .closeSink s' :: es => (if s' = s then 1 else 0) + closeCount s es
  | _ :: es => closeCount s es

/-- The messages passed to `wsConn.WriteMessage`, in call order. -/
def sentMessages : List Effect → List Payload
  | [] => []
  | .writeMessage m :: es => m :: sentMessages es
  | _ :: es => sentMessages es

/-! ## Sample inputs -/

/-- A track that delivers two packets and then fails with `EOF`. -/
def twoPacketTrack : Track :=
  ⟨fun n => if n < 2 then .ok ⟨n, [n]⟩ else .error "EOF"⟩

/-- A writer on which every call succeeds. -/
def goodWriter : Writer := ⟨fun _ _ => none, none⟩

/-- A writer whose `WriteRTP` and `Close` both fail. -/
def brokenWriter : Writer := ⟨fun _ _ => some "disk full", some "close failed"⟩

/-- A case-folding table with no entries outside ASCII. -/
def noUnicodeFold : Nat → Nat → Bool := fun _ _ => false

/-- An outside world in which every call succeeds: the offer is well formed,
the engine accepts it, and the local description gains a candidate line
during gathering. -/
def acceptingEnv : Env where
  upgrade := none
  registerVP8 := none
  registerOpus := none
  newReceiverInterceptor := none
  registerDefaultInterceptors := none
  newPeerConnection := none
  addTransceiverAudio := none
  addTransceiverVideo := none
  oggNew := none
  ivfNew := none
  readMessage := .ok (.object (some (.string "offer")) (some (.string "v=0 m=audio m=video")))
  setRemoteDescription := fun d => if d.sdp = "" then some "EOF" else none
  createAnswer := .ok ⟨.answer, "v=0 m=audio m=video"⟩
  setLocalDescription := fun _ => none
  gatheringCompletes := true
  localDescription := ⟨.answer, "v=0 m=audio a=candidate:1 1 udp 2130706431 192.0.2.1 50000 typ host m=video"⟩
  writeMessage := fun _ => none

/-- The same outside world with an engine that rejects every remote description. -/
def rejectingEnv : Env :=
  { acceptingEnv with setRemoteDescription := fun _ => some "incompatible media" }

/-- The same outside world when the client sends the JSON object with the one
member `type` equal to `offer`. -/
def missingSdpEnv : Env :=
  { acceptingEnv with readMessage := .ok (.object (some (.string "offer")) none) }

/-- The same outside world when the client sends bytes that are no JSON text. -/
def notJSONEnv : Env :=
  { acceptingEnv with readMessage := .ok (.invalid "offer?") }

/-- A track whose first `ReadRTP` fails. -/
def endedTrack : Track := ⟨fun _ => .error "EOF"⟩

/-- The handler calls of a Session in which the audio track is announced and
its first read fails, and the ICE connection state changes to `failed`; every
`Close` succeeds. -/
def drainAndFailed : List SessionEvent :=
  [.track "audio/opus" goodWriter goodWriter endedTrack 1, .iceState .failed none none none]

/-- The schedule in which the drain runs to its end before the ICE observer
starts. -/
def drainFirst : List Nat := [0, 0, 0, 0, 1, 1, 1, 1, 1, 1]

/-- The schedule in which the ICE observer has closed both writers when the
drain ends. -/
def observerFirst : List Nat := [0, 1, 1, 1, 0, 0, 0, 1, 1, 1]

/-! ## Basic facts on runs -/

@[simp] theorem trace_pure {α : Type} (a : α) : (pure a : Proc α).trace = [] := rfl
@[simp] theorem result_pure {α : Type} (a : α) : (pure a : Proc α).result = .ok a := rfl
@[simp] theorem trace_emit (e : Effect) : (emit e).trace = [e] := rfl
@[simp] theorem result_emit (e : Effect) : (emit e).result = .ok () := rfl
@[simp] theorem trace_halt {α : Type} (s : Stop) : (halt s : Proc α).trace = [] := rfl
@[simp] theorem result_halt {α : Type} (s : Stop) : (halt s : Proc α).result = .error s := rfl
@[simp] theorem trace_osExit {α : Type} (c : Nat) : (osExit c : Proc α).trace = [.exit c] := rfl
@[simp] theorem result_osExit {α : Type} (c : Nat) :
    (osExit c : Proc α).result = .error (.exited c) := rfl

@[simp] theorem trace_emit_bind {β : Type} (e : Effect) (f : Unit → Proc β) :
    (emit e >>= f).trace = e :: (f ()).trace := rfl
@[simp] theorem result_emit_bind {β : Type} (e : Effect) (f : Unit → Proc β) :
    (emit e >>= f).result = (f ()).result := rfl

@[simp] theorem panicOn_none : panicOn none = pure () := rfl
@[simp] theorem panicOn_some (e : Err) : panicOn (some e) = halt (.panicked e) := rfl
@[simp] theorem pure_bind_proc {α β : Type} (a : α) (f : α → Proc β) :
    (pure a >>= f) = f a := rfl
@[simp] theorem halt_bind_proc {α β : Type} (s : Stop) (f : α → Proc β) :
    (halt s >>= f) = halt s := rfl

/-! ## The drain loop -/

theorem loop_zero (i : Sink) (w : Writer) (track : Track) (n : Nat) :
    saveToDiskLoop i w track 0 n = halt .running := rfl

theorem loop_read_error (i : Sink) (w : Writer) (track : Track) (fuel n : Nat) (e : Err)
    (hr : track.readRTP n = .error e) :
    saveToDiskLoop i w track (fuel + 1) n = ⟨[.readRTP none, .print e], .ok ()⟩ := by
  simp only [saveToDiskLoop, hr]; rfl

theorem loop_write_error (i : Sink) (w : Writer) (track : Track) (fuel n : Nat) (p : Packet)
    (e : Err) (hr : track.readRTP n = .ok p) (hw : w.writeRTP n p = some e) :
    saveToDiskLoop i w track (fuel + 1) n
      = ⟨[.readRTP (some p), .writeRTP i p, .print e], .ok ()⟩ := by
  simp only [saveToDiskLoop, hr, hw]; rfl

theorem loop_step (i : Sink) (w : Writer) (track : Track) (fuel n : Nat) (p : Packet)
    (hr : track.readRTP n = .ok p) (hw : w.writeRTP n p = none) :
    saveToDiskLoop i w track (fuel + 1) n
      = ⟨.readRTP (some p) :: .writeRTP i p :: (saveToDiskLoop i w track fuel (n + 1)).trace,
          (saveToDiskLoop i w track fuel (n + 1)).result⟩ := by
  simp only [saveToDiskLoop, hr, hw]; rfl

theorem loop_written_eq_read (i : Sink) (w : Writer) (track : Track) (fuel n : Nat) :
    writtenPackets (saveToDiskLoop i w track fuel n).trace
      = readPackets (saveToDiskLoop i w track fuel n).trace := by
  induction fuel generalizing n with
  | zero => simp [loop_zero, writtenPackets, readPackets]
  | succ fuel ih =>
    cases hr : track.readRTP n with
    | error e => simp [loop_read_error _ _ _ _ _ _ hr, writtenPackets, readPackets]
    | ok p =>
      cases hw : w.writeRTP n p with
      | some e => simp [loop_write_error _ _ _ _ _ _ _ hr hw, writtenPackets, readPackets]
      | none => simp [loop_step _ _ _ _ _ _ hr hw, writtenPackets, readPackets, ih]

theorem loop_ofDrain (i : Sink) (w : Writer) (track : Track) (fuel n : Nat) :
    ∀ e ∈ (saveToDiskLoop i w track fuel n).trace, e.ofDrain i = true ∧ e ≠ .closeSink i := by
  induction fuel generalizing n with
  | zero => simp [loop_zero]
  | succ fuel ih =>
    cases hr : track.readRTP n with
    | error e => simp [loop_read_error _ _ _ _ _ _ hr, Effect.ofDrain]
    | ok p =>
      cases hw : w.writeRTP n p with
      | some e => simp [loop_write_error _ _ _ _ _ _ _ hr hw, Effect.ofDrain]
      | none =>
        simp only [loop_step _ _ _ _ _ _ hr hw, List.mem_cons]
        rintro e (rfl | rfl | he)
        · simp [Effect.ofDrain]
        · simp [Effect.ofDrain]
        · exact ih (n + 1) e he

theorem loop_result (i : Sink) (w : Writer) (track : Track) (fuel n : Nat) :
    (saveToDiskLoop i w track fuel n).result = .ok ()
      ∨ (saveToDiskLoop i w track fuel n).result = .error .running := by
  induction fuel generalizing n with
  | zero => simp [loop_zero]
  | succ fuel ih =>
    cases hr : track.readRTP n with
    | error e => simp [loop_read_error _ _ _ _ _ _ hr]
    | ok p =>
      cases hw : w.writeRTP n p with
      | some e => simp [loop_write_error _ _ _ _ _ _ _ hr hw]
      | none => simpa [loop_step _ _ _ _ _ _ hr hw] using ih (n + 1)

/-- The loop ends within `d + 1` iterations when, `d` iterations on, the read or the write fails. -/
theorem loop_terminates (i : Sink) (w : Writer) (track : Track) (d fuel n : Nat)
    (hfuel : d < fuel)
    (hstop : (∃ e, track.readRTP (n + d) = .error e)
      ∨ ∃ p e, track.readRTP (n + d) = .ok p ∧ w.writeRTP (n + d) p = some e) :
    (saveToDiskLoop i w track fuel n).result = .ok () := by
  induction d generalizing fuel n with
  | zero =>
    obtain ⟨fuel, rfl⟩ : ∃ f, fuel = f + 1 := ⟨fuel - 1, by omega⟩
    simp only [Nat.add_zero] at hstop
    rcases hstop with ⟨e, he⟩ | ⟨p, e, hp, he⟩
    · simp [loop_read_error _ _ _ _ _ _ he]
    · simp [loop_write_error _ _ _ _ _ _ _ hp he]
  | succ d ih =>
    obtain ⟨fuel, rfl⟩ : ∃ f, fuel = f + 1 := ⟨fuel - 1, by omega⟩
    cases hr : track.readRTP n with
    | error e => simp [loop_read_error _ _ _ _ _ _ hr]
    | ok p =>
      cases hw : w.writeRTP n p with
      | some e => simp [loop_write_error _ _ _ _ _ _ _ hr hw]
      | none =>
        simp only [loop_step _ _ _ _ _ _ hr hw]
        apply ih fuel (n + 1) (by omega)
        have : n + 1 + d = n + (d + 1) := by omega
        rw [this]; exact hstop

theorem loop_reads_all (i : Sink) (w : Writer) (track : Track) (d fuel n : Nat) (e : Err)
    (hfuel : d < fuel)
    (hok : ∀ j, j < d → ∃ p, track.readRTP (n + j) = .ok p ∧ w.writeRTP (n + j) p = none)
    (hend : track.readRTP (n + d) = .error e) :
    readPackets (saveToDiskLoop i w track fuel n).trace = track.packetsFrom n d := by
  induction d generalizing fuel n with
  | zero =>
    obtain ⟨fuel, rfl⟩ : ∃ f, fuel = f + 1 := ⟨fuel - 1, by omega⟩
    simp only [Nat.add_zero] at hend
    simp [loop_read_error _ _ _ _ _ _ hend, readPackets, Track.packetsFrom]
  | succ d ih =>
    obtain ⟨fuel, rfl⟩ : ∃ f, fuel = f + 1 := ⟨fuel - 1, by omega⟩
    obtain ⟨p, hr, hw⟩ := hok 0 (by omega)
    simp only [Nat.add_zero] at hr hw
    simp only [loop_step _ _ _ _ _ _ hr hw, readPackets, Track.packetsFrom, hr]
    congr 1
    apply ih fuel (n + 1) (by omega)
    · intro j hj
      have := hok (j + 1) (by omega)
      have h2 : n + 1 + j = n + (j + 1) := by omega
      rw [h2]; exact this
    · have h2 : n + 1 + d = n + (d + 1) := by omega
      rw [h2]; exact hend

theorem writtenPackets_append (a b : List Effect) :
    writtenPackets (a ++ b) = writtenPackets a ++ writtenPackets b := by
  induction a with
  | nil => rfl
  | cons e a ih => cases e <;> simp [writtenPackets, ih]

theorem readPackets_append (a b : List Effect) :
    readPackets (a ++ b) = readPackets a ++ readPackets b := by
  induction a with
  | nil => rfl
  | cons e a ih =>
    cases e with
    | readRTP p => cases p <;> simp [readPackets, ih]
    | _ => simp [readPackets, ih]

theorem closeCount_append (s : Sink) (a b : List Effect) :
    closeCount s (a ++ b) = closeCount s a + closeCount s b := by
  induction a with
  | nil => simp [closeCount]
  | cons e a ih => cases e <;> simp [closeCount, ih, Nat.add_assoc]

theorem closeCount_eq_zero (s : Sink) (a : List Effect) (h : ∀ e ∈ a, e ≠ .closeSink s) :
    closeCount s a = 0 := by
  induction a with
  | nil => rfl
  | cons e a ih =>
    have hrest := ih (fun x hx => h x (List.mem_cons_of_mem _ hx))
    cases e with
    | closeSink s' =>
      have hne : s' ≠ s := fun hs => h (.closeSink s') (List.mem_cons_self _ _) (by rw [hs])
      simp [closeCount, hne, hrest]
    | _ => simp [closeCount, hrest]

theorem saveToDisk_returned (i : Sink) (w : Writer) (track : Track) (fuel : Nat)
    (h : (saveToDiskLoop i w track fuel 0).result = .ok ()) :
    saveToDisk i w track fuel
      = ⟨(saveToDiskLoop i w track fuel 0).trace ++ [.closeSink i], (panicOn w.close).result⟩ := by
  unfold saveToDisk withDefer
  rw [h]
  cases w.close <;> rfl

theorem saveToDisk_running (i : Sink) (w : Writer) (track : Track) (fuel : Nat)
    (h : (saveToDiskLoop i w track fuel 0).result = .error .running) :
    saveToDisk i w track fuel = ⟨(saveToDiskLoop i w track fuel 0).trace, .error .running⟩ := by
  unfold saveToDisk withDefer
  rw [h]

theorem saveToDisk_result_running_iff (i : Sink) (w : Writer) (track : Track) (fuel : Nat) :
    (saveToDisk i w track fuel).result = .error .running
      ↔ (saveToDiskLoop i w track fuel 0).result = .error .running := by
  rcases loop_result i w track fuel 0 with h | h
  · rw [saveToDisk_returned i w track fuel h, h]
    cases w.close <;> simp
  · rw [saveToDisk_running i w track fuel h, h]

theorem saveToDisk_written_eq_read (i : Sink) (w : Writer) (track : Track) (fuel : Nat) :
    writtenPackets (saveToDisk i w track fuel).trace
      = readPackets (saveToDisk i w track fuel).trace := by
  rcases loop_result i w track fuel 0 with h | h
  · rw [saveToDisk_returned i w track fuel h]
    simp [writtenPackets_append, readPackets_append, writtenPackets, readPackets,
      loop_written_eq_read]
  · rw [saveToDisk_running i w track fuel h]
    exact loop_written_eq_read i w track fuel 0

theorem saveToDisk_ofDrain (i : Sink) (w : Writer) (track : Track) (fuel : Nat) :
    ∀ e ∈ (saveToDisk i w track fuel).trace, e.ofDrain i = true := by
  intro e he
  rcases loop_result i w track fuel 0 with h | h
  · rw [saveToDisk_returned i w track fuel h] at he
    simp only [List.mem_append, List.mem_singleton] at he
    rcases he with he | rfl
    · exact (loop_ofDrain i w track fuel 0 e he).1
    · simp [Effect.ofDrain]
  · rw [saveToDisk_running i w track fuel h] at he
    exact (loop_ofDrain i w track fuel 0 e he).1

/-- C4: the packets `saveToDisk` passes to `WriteRTP` are, in order, a prefix of
the packets `ReadRTP` returned, every one of them goes to the sink given to
`saveToDisk`, and when the first `ReadRTP` failure is the call number `k` and
no `WriteRTP` call failed before, the drain ends and the packets written are
exactly the `k` packets read before that failure. -/
theorem saveToDisk_writes_reads_in_order (i : Sink) (w : Writer) (track : Track) (fuel : Nat) :
    writtenPackets (saveToDisk i w track fuel).trace
        <+: readPackets (saveToDisk i w track fuel).trace
    ∧ (∀ s p, Effect.writeRTP s p ∈ (saveToDisk i w track fuel).trace → s = i)
    ∧ ∀ k e, k < fuel →
        (∀ j, j < k → ∃ p, track.readRTP j = .ok p ∧ w.writeRTP j p = none) →
        track.readRTP k = .error e →
        (saveToDisk i w track fuel).result ≠ .error .running
        ∧ readPackets (saveToDisk i w track fuel).trace = track.packets k
        ∧ writtenPackets (saveToDisk i w track fuel).trace = track.packets k := by
  refine ⟨?_, ?_, ?_⟩
  · rw [saveToDisk_written_eq_read]
  · intro s p hmem
    simpa [Effect.ofDrain] using saveToDisk_ofDrain i w track fuel _ hmem
  · intro k e hk hok hend
    have hterm : (saveToDiskLoop i w track fuel 0).result = .ok () :=
      loop_terminates i w track k fuel 0 hk (Or.inl ⟨e, by simpa using hend⟩)
    have hreads : readPackets (saveToDisk i w track fuel).trace = track.packets k := by
      rw [saveToDisk_returned i w track fuel hterm]
      simp only [readPackets_append, readPackets, List.append_nil]
      exact loop_reads_all i w track k fuel 0 e hk (by simpa using hok) (by simpa using hend)
    refine ⟨?_, hreads, ?_⟩
    · rw [Ne, saveToDisk_result_running_iff, hterm]; simp
    · rw [saveToDisk_written_eq_read, hreads]

/-- Witness of C4: a track of two packets drained into a writer that never fails. -/
theorem saveToDisk_writes_reads_in_order_witness :
    (saveToDisk .ogg goodWriter twoPacketTrack 5).result ≠ .error .running
    ∧ readPackets (saveToDisk .ogg goodWriter twoPacketTrack 5).trace = twoPacketTrack.packets 2
    ∧ writtenPackets (saveToDisk .ogg goodWriter twoPacketTrack 5).trace
        = twoPacketTrack.packets 2 :=
  (saveToDisk_writes_reads_in_order .ogg goodWriter twoPacketTrack 5).2.2 2 "EOF" (by decide)
    (by intro j hj; interval_cases j <;> exact ⟨_, rfl, rfl⟩) rfl

/-- C9 (as amended): a read failure or a write failure at the call number `k`
ends the drain within `k + 1` iterations; and in every run of `saveToDisk`
that ends, the trace is the loop followed by one `Close` of the sink, which is
the only `Close` and the last effect (no `WriteRTP` follows it), every effect
is a read of the track, a write to or the close of this sink, or output (no
`os.Exit`, nothing on the other sink or the engine), and `saveToDisk` returns
when that `Close` succeeds and panics with its error when it fails. -/
theorem saveToDisk_closes_once (i : Sink) (w : Writer) (track : Track) (fuel : Nat) :
    (∀ k, k < fuel →
        ((∃ e, track.readRTP k = .error e)
          ∨ ∃ p e, track.readRTP k = .ok p ∧ w.writeRTP k p = some e) →
        (saveToDisk i w track fuel).result ≠ .error .running)
    ∧ ((saveToDisk i w track fuel).result ≠ .error .running →
        (∃ body, (saveToDisk i w track fuel).trace = body ++ [.closeSink i]
            ∧ ∀ e ∈ body, e ≠ .closeSink i)
        ∧ closeCount i (saveToDisk i w track fuel).trace = 1
        ∧ (∀ e ∈ (saveToDisk i w track fuel).trace, e.ofDrain i = true)
        ∧ (w.close = none → (saveToDisk i w track fuel).result = .ok ())
        ∧ ∀ e, w.close = some e → (saveToDisk i w track fuel).result = .error (.panicked e)) := by
  constructor
  · intro k hk hstop
    have hterm : (saveToDiskLoop i w track fuel 0).result = .ok () :=
      loop_terminates i w track k fuel 0 hk (by simpa using hstop)
    rw [Ne, saveToDisk_result_running_iff, hterm]; simp
  · intro hterm
    have hloop : (saveToDiskLoop i w track fuel 0).result = .ok () := by
      rcases loop_result i w track fuel 0 with h | h
      · exact h
      · exact absurd ((saveToDisk_result_running_iff i w track fuel).2 h) hterm
    have hbody := loop_ofDrain i w track fuel 0
    refine ⟨⟨_, by rw [saveToDisk_returned i w track fuel hloop], fun e he => (hbody e he).2⟩,
      ?_, saveToDisk_ofDrain i w track fuel, ?_, ?_⟩
    · rw [saveToDisk_returned i w track fuel hloop]
      simp [closeCount_append, closeCount,
        closeCount_eq_zero i _ (fun e he => (hbody e he).2)]
    · intro hc
      rw [saveToDisk_returned i w track fuel hloop, hc]; rfl
    · intro e hc
      rw [saveToDisk_returned i w track fuel hloop, hc]; rfl

/-- Witness of C9: a drain of two packets that ends on the read failure. -/
theorem saveToDisk_closes_once_witness :
    (saveToDisk .ivf goodWriter twoPacketTrack 5).result ≠ .error .running
    ∧ closeCount .ivf (saveToDisk .ivf goodWriter twoPacketTrack 5).trace = 1 :=
  ⟨(saveToDisk_closes_once .ivf goodWriter twoPacketTrack 5).1 2 (by decide)
      (Or.inl ⟨"EOF", rfl⟩),
    ((saveToDisk_closes_once .ivf goodWriter twoPacketTrack 5).2 (by decide)).2.1⟩

/-- Counterexample to C9 as stated: the first `WriteRTP` fails, the drain ends,
the deferred `Close` fails as well, and `saveToDisk` panics instead of
returning. -/
theorem saveToDisk_write_failure_may_panic :
    brokenWriter.writeRTP 0 ⟨0, [0]⟩ = some "disk full"
    ∧ (saveToDisk .ogg brokenWriter twoPacketTrack 5).trace
        = [.readRTP (some ⟨0, [0]⟩), .writeRTP .ogg ⟨0, [0]⟩, .print "disk full", .closeSink .ogg]
    ∧ (saveToDisk .ogg brokenWriter twoPacketTrack 5).result = .error (.panicked "close failed")
    ∧ (saveToDisk .ogg brokenWriter twoPacketTrack 5).result ≠ .ok () := by
  decide

/-! ## Track routing and the lifecycle observers -/

theorem equalFoldRunes_length (unicodeFold : Nat → Nat → Bool) (s t : List Nat)
    (h : equalFoldRunes unicodeFold s t = true) : s.length = t.length := by
  induction s generalizing t with
  | nil => cases t <;> simp_all [equalFoldRunes]
  | cons a s ih =>
    cases t with
    | nil => simp [equalFoldRunes] at h
    | cons b t =>
      simp only [equalFoldRunes, Bool.and_eq_true] at h
      simp [ih t h.2]

theorem equalFold_opus_not_vp8 (unicodeFold : Nat → Nat → Bool) (mimeType : String)
    (h : EqualFold unicodeFold mimeType MimeTypeVP8 = true) :
    EqualFold unicodeFold mimeType MimeTypeOpus = false := by
  cases hopus : EqualFold unicodeFold mimeType MimeTypeOpus with
  | false => rfl
  | true =>
    have h1 := equalFoldRunes_length _ _ _ h
    have h2 := equalFoldRunes_length _ _ _ hopus
    rw [h1] at h2
    exact absurd h2 (by decide)

theorem onTrackHandler_opus (unicodeFold : Nat → Nat → Bool) (mimeType : String)
    (oggFile ivfFile : Writer) (track : Track) (fuel : Nat)
    (h : EqualFold unicodeFold mimeType MimeTypeOpus = true) :
    (onTrackHandler unicodeFold mimeType oggFile ivfFile track fuel).trace
        = .print "Got Opus track, saving to disk as output.opus (48 kHz, 2 channels)"
            :: (saveToDisk .ogg oggFile track fuel).trace
    ∧ (onTrackHandler unicodeFold mimeType oggFile ivfFile track fuel).result
        = (saveToDisk .ogg oggFile track fuel).result := by
  simp [onTrackHandler, h]

theorem onTrackHandler_vp8 (unicodeFold : Nat → Nat → Bool) (mimeType : String)
    (oggFile ivfFile : Writer) (track : Track) (fuel : Nat)
    (h : EqualFold unicodeFold mimeType MimeTypeVP8 = true) :
    (onTrackHandler unicodeFold mimeType oggFile ivfFile track fuel).trace
        = .print "Got VP8 track, saving to disk as output.ivf"
            :: (saveToDisk .ivf ivfFile track fuel).trace
    ∧ (onTrackHandler unicodeFold mimeType oggFile ivfFile track fuel).result
        = (saveToDisk .ivf ivfFile track fuel).result := by
  simp [onTrackHandler, h, equalFold_opus_not_vp8 unicodeFold mimeType h]

theorem onTrackHandler_other (unicodeFold : Nat → Nat → Bool) (mimeType : String)
    (oggFile ivfFile : Writer) (track : Track) (fuel : Nat)
    (h1 : EqualFold unicodeFold mimeType MimeTypeOpus = false)
    (h2 : EqualFold unicodeFold mimeType MimeTypeVP8 = false) :
    onTrackHandler unicodeFold mimeType oggFile ivfFile track fuel = ⟨[], .ok ()⟩ := by
  simp only [onTrackHandler, h1, h2, Bool.false_eq_true, if_false]
  rfl

/-- C3: the `OnTrack` handler looks at the MIME type only.  When it folds to
`audio/opus` the handler is the drain of the track into the ogg writer (after
one line of output) and touches nothing of the ivf writer; when it folds to
`video/VP8` it is the drain into the ivf writer and touches nothing of the ogg
writer; for every other MIME type the handler performs no effect at all (no
read, no write, no close) and returns. -/
theorem onTrackHandler_routes_by_mime (unicodeFold : Nat → Nat → Bool) (mimeType : String)
    (oggFile ivfFile : Writer) (track : Track) (fuel : Nat) :
    (EqualFold unicodeFold mimeType MimeTypeOpus = true →
      (onTrackHandler unicodeFold mimeType oggFile ivfFile track fuel).trace
          = .print "Got Opus track, saving to disk as output.opus (48 kHz, 2 channels)"
              :: (saveToDisk .ogg oggFile track fuel).trace
        ∧ (onTrackHandler unicodeFold mimeType oggFile ivfFile track fuel).result
          = (saveToDisk .ogg oggFile track fuel).result
        ∧ ∀ e ∈ (onTrackHandler unicodeFold mimeType oggFile ivfFile track fuel).trace,
            e.ofDrain .ogg = true)
    ∧ (EqualFold unicodeFold mimeType MimeTypeVP8 = true →
      (onTrackHandler unicodeFold mimeType oggFile ivfFile track fuel).trace
          = .print "Got VP8 track, saving to disk as output.ivf"
              :: (saveToDisk .ivf ivfFile track fuel).trace
        ∧ (onTrackHandler unicodeFold mimeType oggFile ivfFile track fuel).result
          = (saveToDisk .ivf ivfFile track fuel).result
        ∧ ∀ e ∈ (onTrackHandler unicodeFold mimeType oggFile ivfFile track fuel).trace,
            e.ofDrain .ivf = true)
    ∧ (EqualFold unicodeFold mimeType MimeTypeOpus = false →
        EqualFold unicodeFold mimeType MimeTypeVP8 = false →
      (onTrackHandler unicodeFold mimeType oggFile ivfFile track fuel).trace = []
        ∧ (onTrackHandler unicodeFold mimeType oggFile ivfFile track fuel).result = .ok ()) := by
  refine ⟨?_, ?_, ?_⟩
  · intro h
    obtain ⟨htrace, hres⟩ := onTrackHandler_opus unicodeFold mimeType oggFile ivfFile track fuel h
    refine ⟨htrace, hres, ?_⟩
    rw [htrace]
    intro e he
    rcases List.mem_cons.1 he with rfl | he
    · rfl
    · exact saveToDisk_ofDrain _ _ _ _ e he
  · intro h
    obtain ⟨htrace, hres⟩ := onTrackHandler_vp8 unicodeFold mimeType oggFile ivfFile track fuel h
    refine ⟨htrace, hres, ?_⟩
    rw [htrace]
    intro e he
    rcases List.mem_cons.1 he with rfl | he
    · rfl
    · exact saveToDisk_ofDrain _ _ _ _ e he
  · intro h1 h2
    rw [onTrackHandler_other unicodeFold mimeType oggFile ivfFile track fuel h1 h2]
    exact ⟨rfl, rfl⟩

/-- Witness of C3: an upper-case audio MIME type is drained into the ogg writer. -/
theorem onTrackHandler_routes_by_mime_witness :
    EqualFold noUnicodeFold "AUDIO/OPUS" MimeTypeOpus = true
    ∧ (onTrackHandler noUnicodeFold "AUDIO/OPUS" goodWriter brokenWriter twoPacketTrack 5).result
        = (saveToDisk .ogg goodWriter twoPacketTrack 5).result :=
  ⟨by decide,
    ((onTrackHandler_routes_by_mime noUnicodeFold "AUDIO/OPUS" goodWriter brokenWriter
      twoPacketTrack 5).1 (by decide)).2.1⟩

/-- C7: the ICE observer is decided by the state it is given.  On `connected`
it only prints.  On `failed` and on `closed` it closes the ogg writer, then
the ivf writer, then the peer connection, then exits with code 0; the first
of the three closes that fails makes it panic with that error, and nothing
that comes later is performed.  On every other state it only prints the
state. -/
theorem onICEConnectionStateChange_reaction (connectionState : ICEConnectionState)
    (oggClose ivfClose pcClose : Option Err) :
    (connectionState = .connected →
      onICEConnectionStateChangeHandler connectionState oggClose ivfClose pcClose
        = ⟨[.print "Connection State has changed connected ",
            .print "Ctrl+C the remote client to stop the demo"], .ok ()⟩)
    ∧ (connectionState = .failed ∨ connectionState = .closed →
      (oggClose = none → ivfClose = none → pcClose = none →
        onICEConnectionStateChangeHandler connectionState oggClose ivfClose pcClose
          = ⟨[.print ("Connection State has changed " ++ connectionState.name ++ " "),
              .closeSink .ogg, .closeSink .ivf, .print "Done writing media files",
              .closePeerConnection, .exit 0], .error (.exited 0)⟩)
      ∧ (∀ e, oggClose = some e →
        onICEConnectionStateChangeHandler connectionState oggClose ivfClose pcClose
          = ⟨[.print ("Connection State has changed " ++ connectionState.name ++ " "),
              .closeSink .ogg], .error (.panicked e)⟩)
      ∧ (∀ e, oggClose = none → ivfClose = some e →
        onICEConnectionStateChangeHandler connectionState oggClose ivfClose pcClose
          = ⟨[.print ("Connection State has changed " ++ connectionState.name ++ " "),
              .closeSink .ogg, .closeSink .ivf], .error (.panicked e)⟩)
      ∧ (∀ e, oggClose = none → ivfClose = none → pcClose = some e →
        onICEConnectionStateChangeHandler connectionState oggClose ivfClose pcClose
          = ⟨[.print ("Connection State has changed " ++ connectionState.name ++ " "),
              .closeSink .ogg, .closeSink .ivf, .print "Done writing media files",
              .closePeerConnection], .error (.panicked e)⟩))
    ∧ (connectionState ≠ .connected → connectionState ≠ .failed → connectionState ≠ .closed →
      onICEConnectionStateChangeHandler connectionState oggClose ivfClose pcClose
        = ⟨[.print ("Connection State has changed " ++ connectionState.name ++ " ")],
            .ok ()⟩) := by
  refine ⟨?_, ?_, ?_⟩
  · rintro rfl; rfl
  · intro hs
    refine ⟨?_, ?_, ?_, ?_⟩
    · rintro rfl rfl rfl
      rcases hs with rfl | rfl <;> rfl
    · rintro e rfl
      rcases hs with rfl | rfl <;> rfl
    · rintro e rfl rfl
      rcases hs with rfl | rfl <;> rfl
    · rintro e rfl rfl rfl
      rcases hs with rfl | rfl <;> rfl
  · intro h1 h2 h3
    cases connectionState <;> first | rfl | contradiction

/-- Witness of C7: on `failed`, with an ivf writer whose `Close` fails, the
observer stops at that close. -/
theorem onICEConnectionStateChange_reaction_witness :
    onICEConnectionStateChangeHandler .failed none (some "close failed") none
      = ⟨[.print ("Connection State has changed " ++ ICEConnectionState.failed.name ++ " "),
          .closeSink .ogg, .closeSink .ivf], .error (.panicked "close failed")⟩ :=
  ((onICEConnectionStateChange_reaction .failed none (some "close failed") none).2.1
    (Or.inl rfl)).2.2.1 "close failed" rfl rfl

/-- C8: the peer-connection observer ends the process with `os.Exit(0)`
exactly on `failed` and on `closed`; whatever the state, its only effects are
output and that exit (no writer and no peer connection is closed); on every
other state it prints the state and returns. -/
theorem onConnectionStateChange_reaction (s : PeerConnectionState) :
    ((onConnectionStateChangeHandler s).result = .error (.exited 0)
        ↔ s = .failed ∨ s = .closed)
    ∧ (Effect.exit 0 ∈ (onConnectionStateChangeHandler s).trace ↔ s = .failed ∨ s = .closed)
    ∧ (∀ e ∈ (onConnectionStateChangeHandler s).trace, e.isOutput = true ∨ e = .exit 0)
    ∧ (s ≠ .failed → s ≠ .closed →
        onConnectionStateChangeHandler s
          = ⟨[.print ("Peer Connection State has changed: " ++ s.name)], .ok ()⟩) := by
  cases s <;> decide

/-- Witness of C8: on `connected` the peer-connection observer prints the state
and returns. -/
theorem onConnectionStateChange_reaction_witness :
    onConnectionStateChangeHandler .connected
      = ⟨[.print ("Peer Connection State has changed: " ++ PeerConnectionState.connected.name)],
          .ok ()⟩ :=
  (onConnectionStateChange_reaction .connected).2.2.2 (by decide) (by decide)

/-! ## Signalling -/

theorem sentMessages_append (a b : List Effect) :
    sentMessages (a ++ b) = sentMessages a ++ sentMessages b := by
  induction a with
  | nil => rfl
  | cons e a ih => cases e <;> simp [sentMessages, ih]

theorem sentMessages_eq_nil_iff (l : List Effect) :
    sentMessages l = [] ↔ ∀ m, Effect.writeMessage m ∉ l := by
  induction l with
  | nil => simp [sentMessages]
  | cons e l ih =>
    cases e with
    | writeMessage m0 =>
      simp only [sentMessages, List.mem_cons, not_or]
      constructor
      · intro h; cases h
      · intro h; exact absurd rfl (h m0).1
    | _ => simp [sentMessages, ih]

/-- A trace with one `WriteMessage` call splits at that call in one way only. -/
theorem split_at_send_unique (a b pre post : List Effect) (m0 m : Payload)
    (ha : sentMessages a = []) (hb : sentMessages b = [])
    (h : a ++ .writeMessage m0 :: b = pre ++ .writeMessage m :: post) :
    pre = a ∧ m = m0 := by
  induction a generalizing pre with
  | nil =>
    cases pre with
    | nil => simp at h; simp [h.1]
    | cons x pre =>
      simp only [List.nil_append, List.cons_append, List.cons.injEq] at h
      have : Effect.writeMessage m ∈ b := by rw [h.2]; simp
      exact absurd this ((sentMessages_eq_nil_iff b).1 hb m)
  | cons x a ih =>
    cases pre with
    | nil =>
      simp only [List.nil_append, List.cons_append, List.cons.injEq] at h
      have : Effect.writeMessage m ∈ x :: a := by rw [h.1]; simp
      exact absurd this ((sentMessages_eq_nil_iff (x :: a)).1 ha m)
    | cons y pre =>
      simp only [List.cons_append, List.cons.injEq] at h
      have ha' : sentMessages a = [] := by
        rw [sentMessages_eq_nil_iff] at ha ⊢
        intro m' hm'
        exact ha m' (List.mem_cons_of_mem _ hm')
      obtain ⟨h1, h2⟩ := ih pre ha' h.2
      exact ⟨by rw [h.1, h1], h2⟩

theorem handleOffer_of_setupOk (env : Env) (h : env.setupOk) :
    handleOffer env = ⟨setupTrace ++ (exchange env).trace, (exchange env).result⟩ := by
  obtain ⟨h1, h2, h3, h4, h5, h6, h7, h8, h9⟩ := h
  simp only [handleOffer, h1, h2, h3, h4, h5, h6, h7, h8, h9, panicOn_none, pure_bind_proc]
  rfl

theorem handleOffer_of_setup_failure (env : Env) (h : ¬ env.setupOk) :
    (∃ e, (handleOffer env).result = .error (.panicked e))
    ∧ ∃ rest, setupTrace = (handleOffer env).trace ++ rest := by
  unfold Env.setupOk at h
  unfold handleOffer
  rcases h1 : env.registerVP8 with _ | e
  swap
  · exact ⟨⟨e, by simp⟩, ⟨_, by simp [setupTrace]; rfl⟩⟩
  rcases h2 : env.registerOpus with _ | e
  swap
  · exact ⟨⟨e, by simp⟩, ⟨_, by simp [setupTrace]; rfl⟩⟩
  rcases h3 : env.newReceiverInterceptor with _ | e
  swap
  · exact ⟨⟨e, by simp⟩, ⟨_, by simp [setupTrace]; rfl⟩⟩
  rcases h4 : env.registerDefaultInterceptors with _ | e
  swap
  · exact ⟨⟨e, by simp⟩, ⟨_, by simp [setupTrace]; rfl⟩⟩
  rcases h5 : env.newPeerConnection with _ | e
  swap
  · exact ⟨⟨e, by simp⟩, ⟨_, by simp [setupTrace]; rfl⟩⟩
  rcases h6 : env.addTransceiverAudio with _ | e
  swap
  · exact ⟨⟨e, by simp⟩, ⟨_, by simp [setupTrace]; rfl⟩⟩
  rcases h7 : env.addTransceiverVideo with _ | e
  swap
  · exact ⟨⟨e, by simp⟩, ⟨_, by simp [setupTrace]; rfl⟩⟩
  rcases h8 : env.oggNew with _ | e
  swap
  · exact ⟨⟨e, by simp⟩, ⟨_, by simp [setupTrace]; rfl⟩⟩
  rcases h9 : env.ivfNew with _ | e
  swap
  · exact ⟨⟨e, by simp⟩, ⟨_, by simp [setupTrace]; rfl⟩⟩
  exact absurd ⟨h1, h2, h3, h4, h5, h6, h7, h8, h9⟩ h

theorem exchange_read_error (env : Env) (e : Err) (hr : env.readMessage = .error e) :
    exchange env = ⟨[.readMessage, .log e], .error (.panicked e)⟩ := by
  simp only [exchange, hr]; rfl

theorem exchange_decode_error (env : Env) (msg : Payload) (e : Err)
    (hr : env.readMessage = .ok msg) (hd : Unmarshal msg = .error e) :
    exchange env = ⟨[.readMessage, .log e], .error (.panicked e)⟩ := by
  simp only [exchange, hr, hd]; rfl

theorem exchange_rejected (env : Env) (msg : Payload) (offer : SessionDescription) (e : Err)
    (hr : env.readMessage = .ok msg) (hd : Unmarshal msg = .ok offer)
    (hs : env.setRemoteDescription offer = some e) :
    exchange env
      = ⟨[.readMessage, .print "success offer", .setRemoteDescription offer, .print e],
          .ok ()⟩ := by
  simp only [exchange, hr, hd, hs]; rfl

theorem exchange_no_answer (env : Env) (msg : Payload) (offer : SessionDescription) (e : Err)
    (hr : env.readMessage = .ok msg) (hd : Unmarshal msg = .ok offer)
    (hs : env.setRemoteDescription offer = none) (hc : env.createAnswer = .error e) :
    exchange env
      = ⟨[.readMessage, .print "success offer", .setRemoteDescription offer, .createAnswer,
          .print e], .ok ()⟩ := by
  simp only [exchange, hr, hd, hs, hc]; rfl

theorem exchange_local_rejected (env : Env) (msg : Payload) (offer answer : SessionDescription)
    (e : Err) (hr : env.readMessage = .ok msg) (hd : Unmarshal msg = .ok offer)
    (hs : env.setRemoteDescription offer = none) (hc : env.createAnswer = .ok answer)
    (hl : env.setLocalDescription answer = some e) :
    exchange env
      = ⟨[.readMessage, .print "success offer", .setRemoteDescription offer, .createAnswer,
          .gatheringCompletePromise, .setLocalDescription answer, .print e], .ok ()⟩ := by
  simp only [exchange, hr, hd, hs, hc, hl]; rfl

theorem exchange_blocked (env : Env) (msg : Payload) (offer answer : SessionDescription)
    (hr : env.readMessage = .ok msg) (hd : Unmarshal msg = .ok offer)
    (hs : env.setRemoteDescription offer = none) (hc : env.createAnswer = .ok answer)
    (hl : env.setLocalDescription answer = none) (hg : env.gatheringCompletes = false) :
    exchange env
      = ⟨[.readMessage, .print "success offer", .setRemoteDescription offer, .createAnswer,
          .gatheringCompletePromise, .setLocalDescription answer], .error .blocked⟩ := by
  simp only [exchange, hr, hd, hs, hc, hl, hg]; rfl

theorem exchange_sent (env : Env) (msg : Payload) (offer answer : SessionDescription)
    (hr : env.readMessage = .ok msg) (hd : Unmarshal msg = .ok offer)
    (hs : env.setRemoteDescription offer = none) (hc : env.createAnswer = .ok answer)
    (hl : env.setLocalDescription answer = none) (hg : env.gatheringCompletes = true) :
    exchange env
      = ⟨[.readMessage, .print "success offer", .setRemoteDescription offer, .createAnswer,
          .gatheringCompletePromise, .setLocalDescription answer, .gatherComplete,
          .writeMessage (Marshal answer)]
            ++ (checkError (env.writeMessage (Marshal answer))).trace,
          (checkError (env.writeMessage (Marshal answer))).result⟩ := by
  simp only [exchange, hr, hd, hs, hc, hl, hg]; rfl

theorem checkError_sends_nothing (err : Option Err) :
    sentMessages (checkError err).trace = [] := by
  cases err <;> rfl

/-- The shape of every run of `handleOffer`: no message is written, or the
trace ends with the successful `SetLocalDescription`, the end of gathering and
the one `WriteMessage` of the created answer, followed by output only. -/
theorem handleOffer_shape (env : Env) :
    sentMessages (handleOffer env).trace = []
    ∨ ∃ answer pre post, env.negotiates answer
        ∧ (handleOffer env).trace
            = (pre ++ [.setLocalDescription answer, .gatherComplete])
                ++ .writeMessage (Marshal answer) :: post
        ∧ sentMessages pre = [] ∧ sentMessages post = [] := by
  by_cases hsetup : env.setupOk
  swap
  · left
    obtain ⟨_, rest, hrest⟩ := handleOffer_of_setup_failure env hsetup
    have h0 : sentMessages ((handleOffer env).trace ++ rest) = [] := by rw [← hrest]; rfl
    rw [sentMessages_append] at h0
    exact (List.append_eq_nil.1 h0).1
  rw [handleOffer_of_setupOk env hsetup]
  cases hr : env.readMessage with
  | error e => left; rw [exchange_read_error env e hr]; rfl
  | ok msg =>
  cases hd : Unmarshal msg with
  | error e => left; rw [exchange_decode_error env msg e hr hd]; rfl
  | ok offer =>
  cases hs : env.setRemoteDescription offer with
  | some e => left; rw [exchange_rejected env msg offer e hr hd hs]; rfl
  | none =>
  cases hc : env.createAnswer with
  | error e => left; rw [exchange_no_answer env msg offer e hr hd hs hc]; rfl
  | ok answer =>
  cases hl : env.setLocalDescription answer with
  | some e => left; rw [exchange_local_rejected env msg offer answer e hr hd hs hc hl]; rfl
  | none =>
  cases hg : env.gatheringCompletes with
  | false => left; rw [exchange_blocked env msg offer answer hr hd hs hc hl hg]; rfl
  | true =>
    right
    refine ⟨answer, setupTrace ++ [.readMessage, .print "success offer",
      .setRemoteDescription offer, .createAnswer, .gatheringCompletePromise],
      (checkError (env.writeMessage (Marshal answer))).trace,
      ⟨hsetup, msg, offer, hr, hd, hs, hc, hl, hg⟩, ?_, ?_, checkError_sends_nothing _⟩
    · rw [exchange_sent env msg offer answer hr hd hs hc hl hg]
      simp
    · rfl

/-- C2: in every run of `handleOffer` at most one message is passed to
`WriteMessage`; a `WriteMessage` call comes only after `SetLocalDescription`
was called with the created answer and succeeded and after the wait for the
end of ICE gathering was answered; and on the success path (setup, read,
decoding, remote description, answer, local description and gathering all
succeed) exactly one message is written. -/
theorem handleOffer_writes_once_after_gathering (env : Env) :
    (sentMessages (handleOffer env).trace).length ≤ 1
    ∧ (∀ pre m post, (handleOffer env).trace = pre ++ .writeMessage m :: post →
        ∃ answer, env.createAnswer = .ok answer
          ∧ Effect.setLocalDescription answer ∈ pre
          ∧ env.setLocalDescription answer = none
          ∧ Effect.gatherComplete ∈ pre
          ∧ env.gatheringCompletes = true)
    ∧ (∀ answer, env.negotiates answer → (sentMessages (handleOffer env).trace).length = 1) := by
  rcases handleOffer_shape env with h | ⟨answer, pre0, post0, hneg, htrace, hpre, hpost⟩
  · refine ⟨by simp [h], ?_, ?_⟩
    · intro pre m post hsplit
      have hm : Effect.writeMessage m ∈ (handleOffer env).trace := by rw [hsplit]; simp
      exact absurd hm ((sentMessages_eq_nil_iff _).1 h m)
    · intro answer hneg
      exfalso
      obtain ⟨hsetup, msg, offer, hr, hd, hs, hc, hl, hg⟩ := hneg
      rw [handleOffer_of_setupOk env hsetup, exchange_sent env msg offer answer hr hd hs hc hl hg,
        sentMessages_append, sentMessages_append] at h
      simp [sentMessages] at h
  · have hcount : sentMessages (handleOffer env).trace = [Marshal answer] := by
      rw [htrace, sentMessages_append, sentMessages_append]
      simp [sentMessages, hpre, hpost]
    obtain ⟨_, _, _, _, _, _, hc, hl, hg⟩ := hneg
    refine ⟨by simp [hcount], ?_, fun _ _ => by simp [hcount]⟩
    intro pre m post hsplit
    rw [htrace] at hsplit
    have hpre' : sentMessages (pre0 ++ [.setLocalDescription answer, .gatherComplete]) = [] := by
      rw [sentMessages_append, hpre]; rfl
    obtain ⟨rfl, _⟩ := split_at_send_unique _ _ _ _ _ _ hpre' hpost hsplit
    exact ⟨answer, hc, by simp, hl, by simp, hg⟩

/-- Witness of C2: the run in which every call succeeds writes one message. -/
theorem handleOffer_writes_once_after_gathering_witness :
    acceptingEnv.negotiates ⟨.answer, "v=0 m=audio m=video"⟩
    ∧ (sentMessages (handleOffer acceptingEnv).trace).length = 1 :=
  have hneg : acceptingEnv.negotiates ⟨.answer, "v=0 m=audio m=video"⟩ :=
    ⟨⟨rfl, rfl, rfl, rfl, rfl, rfl, rfl, rfl, rfl⟩, _, _, rfl, rfl, rfl, rfl, rfl, rfl⟩
  ⟨hneg, (handleOffer_writes_once_after_gathering acceptingEnv).2.2 _ hneg⟩

/-- C1 (the code at the failing input): every call succeeds and the local
description gains a candidate line during gathering; the one message written
is the serialization of the value `CreateAnswer` returned, which is not the
serialization of the local description after gathering. -/
theorem handleOffer_sends_answer_as_created :
    acceptingEnv.createAnswer = .ok ⟨.answer, "v=0 m=audio m=video"⟩
    ∧ acceptingEnv.localDescription ≠ ⟨.answer, "v=0 m=audio m=video"⟩
    ∧ (handleOffer acceptingEnv).result = .ok ()
    ∧ sentMessages (handleOffer acceptingEnv).trace
        = [Marshal ⟨.answer, "v=0 m=audio m=video"⟩]
    ∧ sentMessages (handleOffer acceptingEnv).trace ≠ [Marshal acceptingEnv.localDescription] := by
  decide

/-- Counterexample to C5 as stated: the JSON object with the one member `type`
equal to `offer` decodes without error, to a description with an empty `sdp`,
which `handleOffer` applies as the remote description; `handleOffer` does not
panic. -/
theorem handleOffer_applies_offer_without_sdp :
    missingSdpEnv.readMessage = .ok (.object (some (.string "offer")) none)
    ∧ Unmarshal (.object (some (.string "offer")) none) = .ok ⟨.offer, ""⟩
    ∧ Effect.setRemoteDescription ⟨.offer, ""⟩ ∈ (handleOffer missingSdpEnv).trace
    ∧ (handleOffer missingSdpEnv).result = .ok () := by
  decide

/-- C5 (as amended): when decoding the payload fails, `handleOffer` writes no
message and applies no remote description, and, the setup having succeeded,
it ends at the decoding step with the panic of `checkError` on the decoding
error; bytes that are no JSON text fail to decode; a JSON object with a valid
`type` and no `sdp` member decodes to a description with an empty `sdp`, and
that description is applied as the remote description. -/
theorem handleOffer_panics_on_undecodable_offer (env : Env) (msg : Payload)
    (hr : env.readMessage = .ok msg) :
    (∀ e, Unmarshal msg = .error e →
        sentMessages (handleOffer env).trace = []
        ∧ (∀ d, Effect.setRemoteDescription d ∉ (handleOffer env).trace)
        ∧ (env.setupOk →
            handleOffer env = ⟨setupTrace ++ [.readMessage, .log e], .error (.panicked e)⟩))
    ∧ (∀ raw, msg = .invalid raw → ∃ e, Unmarshal msg = .error e)
    ∧ (∀ ty t, msg = .object (some ty) none → SDPType.UnmarshalJSON ty = .ok t →
        Unmarshal msg = .ok ⟨t, ""⟩
        ∧ (env.setupOk → Effect.setRemoteDescription ⟨t, ""⟩ ∈ (handleOffer env).trace)) := by
  refine ⟨?_, ?_, ?_⟩
  · intro e hd
    by_cases hsetup : env.setupOk
    · have hrun := handleOffer_of_setupOk env hsetup
      rw [exchange_decode_error env msg e hr hd] at hrun
      refine ⟨?_, ?_, fun _ => hrun⟩
      · rw [hrun]; rfl
      · intro d; rw [hrun]; simp [setupTrace]
    · obtain ⟨_, rest, hrest⟩ := handleOffer_of_setup_failure env hsetup
      have hsub : ∀ x ∈ (handleOffer env).trace, x ∈ setupTrace := by
        intro x hx; rw [hrest]; exact List.mem_append_left _ hx
      refine ⟨?_, ?_, fun h => absurd h hsetup⟩
      · rw [sentMessages_eq_nil_iff]
        intro m hm
        have := hsub _ hm
        simp [setupTrace] at this
      · intro d hm
        have := hsub _ hm
        simp [setupTrace] at this
  · rintro raw rfl
    exact ⟨_, rfl⟩
  · rintro ty t rfl ht
    have hd : Unmarshal (.object (some ty) none) = .ok ⟨t, ""⟩ := by
      simp only [Unmarshal, ht]
    refine ⟨hd, fun hsetup => ?_⟩
    rw [handleOffer_of_setupOk env hsetup]
    cases hs : env.setRemoteDescription ⟨t, ""⟩ with
    | some e => rw [exchange_rejected env _ _ e hr hd hs]; simp
    | none =>
      cases hc : env.createAnswer with
      | error e => rw [exchange_no_answer env _ _ e hr hd hs hc]; simp
      | ok answer =>
        cases hl : env.setLocalDescription answer with
        | some e => rw [exchange_local_rejected env _ _ answer e hr hd hs hc hl]; simp
        | none =>
          cases hg : env.gatheringCompletes with
          | false => rw [exchange_blocked env _ _ answer hr hd hs hc hl hg]; simp
          | true => rw [exchange_sent env _ _ answer hr hd hs hc hl hg]; simp

/-- Witness of C5: bytes that are no JSON text end `handleOffer` at the
decoding step. -/
theorem handleOffer_panics_on_undecodable_offer_witness :
    handleOffer notJSONEnv
      = ⟨setupTrace ++ [.readMessage, .log "invalid character looking for beginning of value"],
          .error (.panicked "invalid character looking for beginning of value")⟩ :=
  ((handleOffer_panics_on_undecodable_offer notJSONEnv (.invalid "offer?") rfl).1
    "invalid character looking for beginning of value" rfl).2.2
    ⟨rfl, rfl, rfl, rfl, rfl, rfl, rfl, rfl, rfl⟩

/-- Counterexample to C6 as stated: the offer decodes, the engine rejects it,
and `handleOffer` returns normally, as it does when the engine accepts the
offer; the handler of `/ws`, its caller, ends the same way in both runs. -/
theorem handleOffer_returns_normally_on_rejection :
    (∃ offer, rejectingEnv.readMessage.toOption.map Unmarshal = some (.ok offer)
        ∧ rejectingEnv.setRemoteDescription offer = some "incompatible media")
    ∧ (handleOffer rejectingEnv).result = .ok ()
    ∧ (handleOffer acceptingEnv).result = .ok ()
    ∧ (wsHandler rejectingEnv).result = (wsHandler acceptingEnv).result :=
  ⟨⟨⟨.offer, "v=0 m=audio m=video"⟩, by decide, rfl⟩, by decide, by decide, by decide⟩

/-- C6 (as amended): when the offer decodes and the engine rejects it as the
remote description, `handleOffer` prints the error and returns normally: it
writes no message, creates no answer and applies no local description, its
result is the normal return, and so is the result of the handler of `/ws`. -/
theorem handleOffer_logs_rejected_offer (env : Env) (msg : Payload)
    (offer : SessionDescription) (e : Err) (hsetup : env.setupOk)
    (hr : env.readMessage = .ok msg) (hd : Unmarshal msg = .ok offer)
    (hs : env.setRemoteDescription offer = some e) :
    handleOffer env
        = ⟨setupTrace ++ [.readMessage, .print "success offer", .setRemoteDescription offer,
            .print e], .ok ()⟩
    ∧ sentMessages (handleOffer env).trace = []
    ∧ Effect.createAnswer ∉ (handleOffer env).trace
    ∧ (∀ d, Effect.setLocalDescription d ∉ (handleOffer env).trace)
    ∧ (env.upgrade = none → (wsHandler env).result = .ok ()) := by
  have hrun := handleOffer_of_setupOk env hsetup
  rw [exchange_rejected env msg offer e hr hd hs] at hrun
  refine ⟨hrun, ?_, ?_, ?_, ?_⟩
  · rw [hrun]; rfl
  · rw [hrun]; simp [setupTrace]
  · intro d; rw [hrun]; simp [setupTrace]
  · intro hu
    simp [wsHandler, hu, checkError, hrun]

/-- Witness of C6: the run with the engine that rejects every offer. -/
theorem handleOffer_logs_rejected_offer_witness :
    (handleOffer rejectingEnv).result = .ok ()
    ∧ sentMessages (handleOffer rejectingEnv).trace = [] :=
  have h := handleOffer_logs_rejected_offer rejectingEnv
    (.object (some (.string "offer")) (some (.string "v=0 m=audio m=video")))
    ⟨.offer, "v=0 m=audio m=video"⟩ "incompatible media"
    ⟨rfl, rfl, rfl, rfl, rfl, rfl, rfl, rfl, rfl⟩ rfl (by decide) rfl
  ⟨by rw [h.1], h.2.1⟩

/-! ## Closes over a Session -/

theorem closeCount_other_sink (s i : Sink) (l : List Effect) (hne : s ≠ i)
    (h : ∀ e ∈ l, e.ofDrain i = true) : closeCount s l = 0 := by
  apply closeCount_eq_zero
  intro e he heq
  have := h e he
  rw [heq] at this
  simp only [Effect.ofDrain, decide_eq_true_eq] at this
  exact hne this

theorem closeCount_saveToDisk_le (s i : Sink) (w : Writer) (track : Track) (fuel : Nat) :
    closeCount s (saveToDisk i w track fuel).trace ≤ if i = s then 1 else 0 := by
  by_cases hs : i = s
  · subst hs
    simp only [if_true]
    have hbody := loop_ofDrain i w track fuel 0
    have hzero := closeCount_eq_zero i _ (fun e he => (hbody e he).2)
    rcases loop_result i w track fuel 0 with h | h
    · rw [saveToDisk_returned i w track fuel h]
      simp [closeCount_append, closeCount, hzero]
    · rw [saveToDisk_running i w track fuel h, hzero]
      exact Nat.zero_le _
  · simp only [hs, if_false]
    rw [closeCount_other_sink s i _ (fun h => hs h.symm) (saveToDisk_ofDrain i w track fuel)]

theorem closeCount_onTrack_le (unicodeFold : Nat → Nat → Bool) (s : Sink) (mimeType : String)
    (oggFile ivfFile : Writer) (track : Track) (fuel : Nat) :
    closeCount s (onTrackHandler unicodeFold mimeType oggFile ivfFile track fuel).trace
      ≤ if (match s with
            | .ogg => EqualFold unicodeFold mimeType MimeTypeOpus
            | .ivf => EqualFold unicodeFold mimeType MimeTypeVP8) = true then 1 else 0 := by
  cases hopus : EqualFold unicodeFold mimeType MimeTypeOpus with
  | true =>
    have hrun := (onTrackHandler_opus unicodeFold mimeType oggFile ivfFile track fuel hopus).1
    have hle := closeCount_saveToDisk_le s .ogg oggFile track fuel
    cases s with
    | ogg => simpa [hrun, closeCount] using hle
    | ivf =>
      have h0 : closeCount .ivf (saveToDisk .ogg oggFile track fuel).trace = 0 := by
        simpa using hle
      simp [hrun, closeCount, h0]
  | false =>
    cases hvp8 : EqualFold unicodeFold mimeType MimeTypeVP8 with
    | true =>
      have hrun := (onTrackHandler_vp8 unicodeFold mimeType oggFile ivfFile track fuel hvp8).1
      have hle := closeCount_saveToDisk_le s .ivf ivfFile track fuel
      cases s with
      | ivf => simpa [hrun, closeCount] using hle
      | ogg =>
        have h0 : closeCount .ogg (saveToDisk .ivf ivfFile track fuel).trace = 0 := by
          simpa using hle
        simp [hrun, closeCount, h0]
    | false =>
      rw [onTrackHandler_other unicodeFold mimeType oggFile ivfFile track fuel hopus hvp8]
      simp [closeCount]

theorem closeCount_onICE_le (s : Sink) (connectionState : ICEConnectionState)
    (oggClose ivfClose pcClose : Option Err) :
    closeCount s
        (onICEConnectionStateChangeHandler connectionState oggClose ivfClose pcClose).trace
      ≤ if connectionState = .failed ∨ connectionState = .closed then 1 else 0 := by
  cases connectionState <;> cases oggClose <;> cases ivfClose <;> cases pcClose <;> cases s <;>
    simp [onICEConnectionStateChangeHandler, closeCount]

theorem closeCount_onConnectionState (s : Sink) (st : PeerConnectionState) :
    closeCount s (onConnectionStateChangeHandler st).trace = 0 := by
  cases st <;> cases s <;> rfl

theorem sum_map_set (f : Proc Unit → Nat) (l : List (Proc Unit)) (i : Nat) (t t1 : Proc Unit)
    (h : l[i]? = some t) :
    ((l.set i t1).map f).sum + f t = (l.map f).sum + f t1 := by
  induction l generalizing i with
  | nil => simp at h
  | cons x l ih =>
    cases i with
    | zero =>
      simp only [List.getElem?_cons_zero, Option.some.injEq] at h
      subst h
      simp only [List.set_cons_zero, List.map_cons, List.sum_cons]
      omega
    | succ i =>
      simp only [List.getElem?_cons_succ] at h
      have := ih i h
      simp only [List.set_cons_succ, List.map_cons, List.sum_cons]
      omega

theorem closeCount_cons_exit (s : Sink) (code : Nat) (l : List Effect) :
    closeCount s (.exit code :: l) = closeCount s l := rfl

/-- In every interleaving, a sink is closed at most as often as the threads
close it between them. -/
theorem closeCount_interleave_le (s : Sink) (threads : List (Proc Unit))
    (schedule : List Nat) :
    closeCount s (interleave threads schedule)
      ≤ (threads.map fun t => closeCount s t.trace).sum := by
  induction schedule generalizing threads with
  | nil => simp [interleave, closeCount]
  | cons i schedule ih =>
    unfold interleave
    cases h : threads[i]? with
    | none => exact ih threads
    | some t =>
      simp only
      split
      · simp [closeCount]
      · rename_i e rest hne htrace
        have hset := sum_map_set (fun t => closeCount s t.trace) threads i t
          ⟨rest, t.result⟩ h
        have hih := ih (threads.set i ⟨rest, t.result⟩)
        have hcons : closeCount s (e :: interleave (threads.set i ⟨rest, t.result⟩) schedule)
            + closeCount s rest
            = closeCount s t.trace
              + closeCount s (interleave (threads.set i ⟨rest, t.result⟩) schedule) := by
          rw [htrace]
          cases e <;> simp only [closeCount] <;> omega
        simp only at hset
        omega
      · split
        · simp [closeCount]
        · exact ih threads

theorem closeCount_events_le (unicodeFold : Nat → Nat → Bool) (s : Sink)
    (events : List SessionEvent) :
    ((events.map (SessionEvent.run unicodeFold)).map fun t => closeCount s t.trace).sum
      ≤ drainsInto unicodeFold s events + iceTeardowns events := by
  induction events with
  | nil => simp [drainsInto, iceTeardowns]
  | cons ev evs ih =>
    cases ev with
    | track mimeType oggFile ivfFile remote fuel =>
      have hle := closeCount_onTrack_le unicodeFold s mimeType oggFile ivfFile remote fuel
      simp only [List.map_cons, List.sum_cons, drainsInto, iceTeardowns, SessionEvent.run]
      omega
    | iceState cs oggClose ivfClose pcClose =>
      have hle := closeCount_onICE_le s cs oggClose ivfClose pcClose
      simp only [List.map_cons, List.sum_cons, drainsInto, iceTeardowns, SessionEvent.run]
      omega
    | connectionState st =>
      have h0 := closeCount_onConnectionState s st
      simp only [List.map_cons, List.sum_cons, drainsInto, iceTeardowns, SessionEvent.run, h0]
      omega

/-- C10 (as amended): double-close is not guarded.  In every Session, that is
for every list of handler calls and every interleaving of them, `Close` is
invoked on a sink at most once for every announced track drained into that
sink and once for every call of the ICE observer with `failed` or `closed`;
the peer-connection observer closes no sink. -/
theorem runSession_close_bound (unicodeFold : Nat → Nat → Bool) (s : Sink)
    (events : List SessionEvent) (schedule : List Nat) :
    closeCount s (runSession unicodeFold events schedule)
        ≤ drainsInto unicodeFold s events + iceTeardowns events
    ∧ ∀ st, closeCount s (onConnectionStateChangeHandler st).trace = 0 :=
  ⟨Nat.le_trans (closeCount_interleave_le s _ schedule)
      (closeCount_events_le unicodeFold s events),
    closeCount_onConnectionState s⟩

/-- Counterexample to C10 as stated: the audio track ends on its first read,
which closes the ogg writer, and the ICE state changes to `failed`, which
closes the ogg writer as well.  The ogg writer is closed twice, by two
closers, when the drain ends first and also when the observer has closed the
writers before the drain ends. -/
theorem runSession_closes_ogg_twice :
    runSession noUnicodeFold drainAndFailed drainFirst
      = [.print "Got Opus track, saving to disk as output.opus (48 kHz, 2 channels)",
         .readRTP none, .print "EOF", .closeSink .ogg,
         .print "Connection State has changed failed ",
         .closeSink .ogg, .closeSink .ivf, .print "Done writing media files",
         .closePeerConnection, .exit 0]
    ∧ closeCount .ogg (runSession noUnicodeFold drainAndFailed drainFirst) = 2
    ∧ runSession noUnicodeFold drainAndFailed observerFirst
      = [.print "Got Opus track, saving to disk as output.opus (48 kHz, 2 channels)",
         .print "Connection State has changed failed ",
         .closeSink .ogg, .closeSink .ivf,
         .readRTP none, .print "EOF", .closeSink .ogg,
         .print "Done writing media files", .closePeerConnection, .exit 0]
    ∧ closeCount .ogg (runSession noUnicodeFold drainAndFailed observerFirst) = 2 := by
  decide

end WebrtcDemo
